import Mathlib

/-!
# hotel-banya: the booking backend of `server.js`

A shallow embedding of the request handlers of `src/server.js` that carry the
program's logic: phone normalisation, the blocked-slot list, the availability
check, booking submission with its cost block, payment and admin deletion.

Conventions of the embedding.

* A JavaScript string is a `Str`, a list of characters.
* A JavaScript number is an `Option Int`: `none` is `NaN`, `some n` the integer
  `n`. Fractional numbers, and integers too large for a double to hold
  exactly, are outside the embedding.
* A primitive JSON value of a request body is a `JsVal`. Arrays and objects,
  which `===` compares by reference, are outside the embedding.
* A handler takes the stores it reads as arguments and returns the HTTP status
  with the stores it leaves. A `TypeError` thrown inside a handler reaches the
  error middleware (`server.js` 389-392) and is the status 500.
* `authenticateToken` has run: `user` is the phone number of the verified
  session (`req.user.phone`).
* What the handlers take from the process they run in is a `Runtime`: the
  offset of local time from UTC and the date parser for strings other than
  `YYYY-MM-DD`.
-/

namespace HotelBanya

/-! ## Strings, numbers and JSON values -/

/-- JavaScript strings, as sequences of characters. -/
abbrev Str := List Char

/-- Primitive JSON values as a handler reads them from `req.body`;
`undefined` is a field the body does not have. -/
inductive JsVal where
  | undefined
  | null
  | bool (b : Bool)
  | num (n : Int)
  | str (s : Str)
  deriving DecidableEq, Repr

/-- ToBoolean: the values for which `!v` is false. -/
def JsVal.truthy : JsVal → Bool
  | .undefined => false
  | .null => false
  | .bool b => b
  | .num n => decide (n ≠ 0)
  | .str s => !s.isEmpty

/-- Truthiness of an optional string field (`undefined` and `''` are falsy). -/
def strTruthy : Option Str → Bool
  | none => false
  | some s => !s.isEmpty

/-- Truthiness of an optional integer field (`undefined` and `0` are falsy). -/
def numTruthy : Option Int → Bool
  | none => false
  | some n => decide (n ≠ 0)

/-- The characters `String.prototype.trim` and `parseInt` skip
(WhiteSpace and LineTerminator of ECMA-262). -/
def isStrWhiteSpace (c : Char) : Bool :=
  decide (c.toNat ∈ [0x9, 0xA, 0xB, 0xC, 0xD, 0x20, 0xA0, 0x1680, 0x2028, 0x2029,
    0x202F, 0x205F, 0x3000, 0xFEFF]) || (decide (0x2000 ≤ c.toNat) && decide (c.toNat ≤ 0x200A))

/-- The number a string of decimal digits denotes. -/
def digitsValue (ds : Str) : Nat :=
  ds.foldl (fun acc c => 10 * acc + (c.toNat - 48)) 0

/-- The function `parseInt(s, 10)`: leading white space is skipped, one sign is
read, then the longest run of decimal digits; no digit gives `NaN`. -/
def parseInt10 (s : Str) : Option Int :=
  let t := s.dropWhile isStrWhiteSpace
  let signed : Bool × Str :=
    match t with
    | '-' :: r => (true, r)
    | '+' :: r => (false, r)
    | _ => (false, t)
  let z := signed.2.takeWhile Char.isDigit
  if z.isEmpty then none
  else some (if signed.1 then -(digitsValue z : Int) else (digitsValue z : Int))

/-- The call `parseInt(v, 10)` on a value that may be `undefined`
(`parseInt("undefined", 10)` is `NaN`). -/
def parseIntOpt : Option Str → Option Int
  | none => none
  | some s => parseInt10 s

/-- Number-to-string conversion of an integer. -/
def intToString : Int → Str
  | .ofNat n => Nat.toDigits 10 n
  | .negSucc n => '-' :: Nat.toDigits 10 (n + 1)

/-- Number-to-string conversion, `String(x)`, with `NaN` for `none`. -/
def numToString : Option Int → Str
  | none => "NaN".toList
  | some n => intToString n

/-- The method `s.padStart(n, c)` with a one-character filler. -/
def padStart (s : Str) (n : Nat) (c : Char) : Str :=
  List.replicate (n - s.length) c ++ s

/-- The method `s.split(sep)` with a one-character separator. -/
def split (sep : Char) : Str → List Str
  | [] => [[]]
  | c :: cs =>
    if c = sep then [] :: split sep cs
    else
      match split sep cs with
      | [] => [[c]]
      | t :: ts => (c :: t) :: ts

/-- The remainder `a % b` of JavaScript, which takes the sign of `a`;
`NaN` stays `NaN`. -/
def jsMod (a : Option Int) (b : Int) : Option Int :=
  a.map (fun x => x.tmod b)

/-! ## Phone numbers (`server.js` 56-67, 89) -/

/-- The constant `ADMIN_PHONE`. -/
def ADMIN_PHONE : Str := "+79991234567".toList

/-- The function `normalizePhone` of `server.js` 61-67;
`phone.replace(/\D/g, '')` keeps the characters `0`-`9`. -/
def normalizePhone (phone : Str) : Str :=
  let normalized := phone.filter Char.isDigit
  if normalized.head? = some '8' ∧ normalized.length = 11 then
    "+7".toList ++ normalized.drop 1
  else if normalized.length = 10 then "+7".toList ++ normalized
  else if normalized.head? = some '7' ∧ normalized.length = 11 then '+' :: normalized
  else phone

/-- The test `s.match(/^\+7\d{10}$/)` of registration, login and OTP
verification: `+7` followed by exactly ten digits and nothing else. -/
def matchesPhone : Str → Bool
  | '+' :: '7' :: rest => decide (rest.length = 10) && rest.all Char.isDigit
  | _ => false

/-! ## Dates (the runtime's `Date`, ECMA-262 21.4.1, with a fixed local offset) -/

/-- Milliseconds in a day. -/
def msPerDay : Int := 86400000

/-- Day number of a time value: `Day(t) = floor(t / msPerDay)`. -/
def Day (t : Int) : Int := t / msPerDay

/-- Milliseconds since the start of the day: `TimeWithinDay(t)`. -/
def TimeWithinDay (t : Int) : Int := t % msPerDay

/-- Day number (days since 1970-01-01) of the first day of month `m` (1-12)
of year `y` in the proleptic Gregorian calendar. -/
def monthStartDay (y m : Int) : Int :=
  let y1 := if m ≤ 2 then y - 1 else y
  let era := y1 / 400
  let yoe := y1 - era * 400
  let mp := if m > 2 then m - 3 else m + 9
  let doy := (153 * mp + 2) / 5
  let doe := yoe * 365 + yoe / 4 - yoe / 100 + doy
  era * 146097 + doe - 719468

/-- Year and month (1-12) of the calendar day with day number `z`. -/
def yearMonthOfDay (z : Int) : Int × Int :=
  let z1 := z + 719468
  let era := z1 / 146097
  let doe := z1 - era * 146097
  let yoe := (doe - doe / 1460 + doe / 36524 - doe / 146096) / 365
  let doy := doe - (365 * yoe + yoe / 4 - yoe / 100)
  let mp := (5 * doy + 2) / 153
  let m := if mp < 10 then mp + 3 else mp - 9
  (if m ≤ 2 then yoe + era * 400 + 1 else yoe + era * 400, m)

/-- Year of a time value: `YearFromTime(t)`. -/
def YearFromTime (t : Int) : Int := (yearMonthOfDay (Day t)).1

/-- Month of a time value, 1-12 (`MonthFromTime(t) + 1`). -/
def MonthFromTime (t : Int) : Int := (yearMonthOfDay (Day t)).2

/-- Day of the month of a time value: `DateFromTime(t)`, the distance of
`Day(t)` from the first day of its month, plus one. -/
def DateFromTime (t : Int) : Int :=
  Day t - monthStartDay (YearFromTime t) (MonthFromTime t) + 1

/-- Day number of day `dt` of month `m` (1-12) of year `y`: `MakeDay`; a `dt`
past the month's end runs into the next month. -/
def MakeDay (y m dt : Int) : Int := monthStartDay y m + dt - 1

/-- Time value of a day number and a time within the day: `MakeDate`. -/
def MakeDate (day time : Int) : Int := day * msPerDay + time

/-- Number of days of month `m` (1-12) of year `y`. -/
def daysInMonth (y m : Int) : Int :=
  if m = 12 then monthStartDay (y + 1) 1 - monthStartDay y 12
  else monthStartDay y (m + 1) - monthStartDay y m

/-- The limit of `TimeClip`: a time value is at most 8.64e15 ms from the epoch. -/
def maxTime : Int := 8640000000000000

/-- The operation `TimeClip`: a time value out of range is `NaN`. -/
def TimeClip (t : Int) : Option Int :=
  if -maxTime ≤ t ∧ t ≤ maxTime then some t else none

/-- What a handler takes from the process it runs in: `tzMinutes`, the minutes
local time is ahead of UTC (a fixed offset, without daylight-saving changes), and
`parseOther`, the result of `Date.parse` on the strings that are not a calendar
date `YYYY-MM-DD`. -/
structure Runtime where
  tzMinutes : Int
  parseOther : Str → Option Int

/-- Two decimal digits read as a number, `none` unless both are digits. -/
def twoDigits (a b : Char) : Option Int :=
  if a.isDigit ∧ b.isDigit then some (digitsValue [a, b] : Int) else none

/-- The call `Date.parse(s)`: a calendar date in the date-only form
`YYYY-MM-DD` is UTC midnight of that day (ECMA-262 21.4.1.32); every other
string is left to `rt.parseOther`. -/
def dateParse (rt : Runtime) (s : Str) : Option Int :=
  match s with
  | [y1, y2, y3, y4, '-', m1, m2, '-', d1, d2] =>
    if y1.isDigit ∧ y2.isDigit ∧ y3.isDigit ∧ y4.isDigit then
      match twoDigits m1 m2, twoDigits d1 d2 with
      | some m, some d =>
        if 1 ≤ m ∧ m ≤ 12 ∧ 1 ≤ d ∧ d ≤ daysInMonth (digitsValue [y1, y2, y3, y4] : Int) m then
          some (MakeDate (MakeDay (digitsValue [y1, y2, y3, y4] : Int) m d) 0)
        else rt.parseOther s
      | _, _ => rt.parseOther s
    else rt.parseOther s
  | _ => rt.parseOther s

/-- The constructor `new Date(v)` on a primitive value, as the time value of the
new object (`none` is an invalid date): a string is parsed, a number is the
time value itself if in range, `undefined` is invalid, `null` and booleans
convert to numbers. -/
def newDate (rt : Runtime) : JsVal → Option Int
  | .str s => dateParse rt s
  | .num n => TimeClip n
  | .undefined => none
  | .null => some 0
  | .bool b => some (if b then 1 else 0)

/-- The call `d.setHours(0, 0, 0, 0)` on a valid date: midnight of the local
day of `t`, or `NaN` when that is out of range. -/
def setHoursZero (rt : Runtime) (t : Int) : Option Int :=
  let offset := rt.tzMinutes * 60000
  TimeClip (MakeDate (Day (t + offset)) 0 - offset)

/-- The call `d.setDate(d.getDate() + 1)` on a valid date: the local calendar
date is advanced by one, the local time of day kept; `NaN` when out of range. -/
def setDateNext (rt : Runtime) (t : Int) : Option Int :=
  let offset := rt.tzMinutes * 60000
  let loc := t + offset
  TimeClip (MakeDate (MakeDay (YearFromTime loc) (MonthFromTime loc) (DateFromTime loc + 1))
    (TimeWithinDay loc) - offset)

/-- The year field of `toISOString`: four digits for 0-9999, a sign and six
digits otherwise. -/
def isoYear (y : Int) : Str :=
  if 0 ≤ y ∧ y ≤ 9999 then padStart (intToString y) 4 '0'
  else (if y < 0 then '-' else '+') :: padStart (intToString y.natAbs) 6 '0'

/-- The method `d.toISOString()` of a valid date:
`YYYY-MM-DDTHH:mm:ss.sssZ` in UTC. -/
def toISOString (t : Int) : Str :=
  let w := TimeWithinDay t
  isoYear (YearFromTime t) ++ '-' :: padStart (intToString (MonthFromTime t)) 2 '0'
    ++ '-' :: padStart (intToString (DateFromTime t)) 2 '0'
    ++ 'T' :: padStart (intToString (w / 3600000)) 2 '0'
    ++ ':' :: padStart (intToString (w / 60000 % 60)) 2 '0'
    ++ ':' :: padStart (intToString (w / 1000 % 60)) 2 '0'
    ++ '.' :: padStart (intToString (w % 1000)) 3 '0' ++ ['Z']

/-- The string `YYYY-MM-DD` of the calendar day with day number `n`, the date
part of `toISOString` at any time of that day. -/
def isoDateOfDay (n : Int) : Str :=
  let ym := yearMonthOfDay n
  isoYear ym.1 ++ '-' :: padStart (intToString ym.2) 2 '0'
    ++ '-' :: padStart (intToString (n - monthStartDay ym.1 ym.2 + 1)) 2 '0'

/-! ## Blocked slots (`server.js` 45, 153-170) -/

/-- An entry of `blockedDatesStore`: the `service` and `date` of the request
that blocked it. -/
structure BlockedSlot where
  service : JsVal
  date : JsVal
  deriving DecidableEq, Repr

/-- The test `blockedDatesStore.some((b) => b.service === service && b.date === date)`. -/
def isBlocked (store : List BlockedSlot) (service date : JsVal) : Bool :=
  store.any (fun b => decide (b.service = service ∧ b.date = date))

/-- The handler `POST /api/blocked-dates` (`server.js` 155-162). -/
def postBlockedDates (store : List BlockedSlot) (user : Str) (service date : JsVal) :
    Nat × List BlockedSlot :=
  if user ≠ ADMIN_PHONE then (403, store)
  else if !service.truthy || !date.truthy then (400, store)
  else if isBlocked store service date then (409, store)
  else (201, store ++ [{ service := service, date := date }])

/-- The handler `DELETE /api/blocked-dates/:index` (`server.js` 164-170);
`index` is `parseInt(req.params.index)`. -/
def deleteBlockedDates (store : List BlockedSlot) (user : Str) (index : Option Int) :
    Nat × List BlockedSlot :=
  if user ≠ ADMIN_PHONE then (403, store)
  else
    match index with
    | none => (404, store)
    | some i =>
      if i < 0 ∨ i ≥ store.length then (404, store)
      else (204, store.eraseIdx i.toNat)

/-- A request to one of the two handlers that change the blocked-slot list. -/
inductive BlockedRequest where
  | block (user : Str) (service date : JsVal)
  | unblock (user : Str) (index : Option Int)

/-- The blocked-slot list after one request. -/
def stepBlocked (store : List BlockedSlot) : BlockedRequest → List BlockedSlot
  | .block user service date => (postBlockedDates store user service date).2
  | .unblock user index => (deleteBlockedDates store user index).2

/-- The blocked-slot list after a sequence of requests. -/
def runBlocked (store : List BlockedSlot) (reqs : List BlockedRequest) : List BlockedSlot :=
  reqs.foldl stepBlocked store

/-- The invariant of the blocked-slot list: no entry twice, and every entry
with a truthy service and a truthy date. -/
def BlockedInv (store : List BlockedSlot) : Prop :=
  store.Nodup ∧ ∀ b ∈ store, b.service.truthy = true ∧ b.date.truthy = true

/-! ## Availability check (`server.js` 177-204) -/

/-- The services of the list `['Sauna', 'Banya', 'Banquet', 'Kitchen']`. -/
def hourlyServices : List Str :=
  ["Sauna".toList, "Banya".toList, "Banquet".toList, "Kitchen".toList]

/-- The test `['Sauna', 'Banya', 'Banquet', 'Kitchen'].includes(service)`. -/
def isHourly (service : JsVal) : Bool :=
  match service with
  | .str s => decide (s ∈ hourlyServices)
  | _ => false

/-- The two decimal digits of a number below 100, as the slot strings
`YYYY-MM-DD HH:00` write the hour. -/
def twoDigit (n : Nat) : Str :=
  [Char.ofNat (48 + n / 10), Char.ofNat (48 + n % 10)]

/-- The slot string of iteration `i` of the hourly loop (`server.js` 184-185):
the template `dateStr + ' ' + checkHour + ':00'` with
`checkHour = String((startHour + i) % 24).padStart(2, '0')`. -/
def hourlySlot (dateStr : Str) (startHour : Option Int) (i : Nat) : Str :=
  let checkHour := padStart (numToString (jsMod (startHour.map (fun h => h + (i : Int))) 24)) 2 '0'
  dateStr ++ ' ' :: checkHour ++ ":00".toList

/-- The hourly loop `for (let i = 0; i < duration; i++)` of `server.js`
183-188, true when some iteration finds its slot blocked. A `duration` that is
`undefined` compares as `NaN`, so the body never runs. -/
def hourlyConflict (store : List BlockedSlot) (service : JsVal) (dateStr : Str)
    (startHour : Option Int) (duration : Option Int) : Bool :=
  match duration with
  | none => false
  | some d =>
    (List.range d.toNat).any
      (fun i => isBlocked store service (.str (hourlySlot dateStr startHour i)))

/-- The day string `d.toISOString().split('T')[0]` of `server.js` 195. -/
def checkDateOf (t : Int) : Str :=
  ((split 'T' (toISOString t)).head?).getD []

/-- The ranged loop `for (let d = new Date(start); d <= end; d.setDate(d.getDate() + 1))`
of `server.js` 194-199, with `fuel` bounding the iterations: `some true` when a
day is found blocked, `some false` when the loop ends without one (`d` past
`end`, or `d` invalid, which compares false), `none` when the fuel runs out
first. -/
def rangedConflict (rt : Runtime) (store : List BlockedSlot) (service : JsVal) (end_ : Int) :
    Nat → Int → Option Bool
  | 0, _ => none
  | fuel + 1, d =>
    if d ≤ end_ then
      if isBlocked store service (.str (checkDateOf d)) then some true
      else
        match setDateNext rt d with
        | some d' => rangedConflict rt store service end_ fuel d'
        | none => some false
    else some false

/-- The handler `POST /api/bookings/check` (`server.js` 177-204): the status of
the response, or `none` if the ranged loop has not ended after the iterations
it is given (one for each day from start to end, and one to leave).

`duration` is `undefined` (`none`) or an integer. -/
def postBookingsCheck (rt : Runtime) (store : List BlockedSlot)
    (service date endDate : JsVal) (duration : Option Int) : Option Nat :=
  if isHourly service then
    match date with
    | .str ds =>
      let parts := split ' ' ds
      let dateStr := (parts.head?).getD []
      let hour := parts.tail.head?
      let startHour := parseIntOpt hour
      if hourlyConflict store service dateStr startHour duration then some 409 else some 200
    | _ => some 500
  else if endDate.truthy then
    match (newDate rt date).bind (setHoursZero rt), (newDate rt endDate).bind (setHoursZero rt) with
    | some start, some end_ =>
      (rangedConflict rt store service end_ (((end_ - start) / msPerDay).toNat + 2) start).map
        (fun c => if c then 409 else 200)
    | _, _ => some 200
  else
    if isBlocked store service date then some 409 else some 200

/-- A server at UTC. -/
def utcServer : Runtime := { tzMinutes := 0, parseOther := fun _ => none }

/-- A server three hours east of UTC, as Moscow is. -/
def eastServer : Runtime := { tzMinutes := 180, parseOther := fun _ => none }

/-! ## Service catalogue (`server.js` 47-54) -/

/-- The `price` fields of the initial `servicesStore`, by service name. -/
def servicesStore : List (Str × Str) :=
  [("StandardRoom".toList, "2000 ₽/ночь".toList),
   ("LuxRoom".toList, "3500 ₽/ночь".toList),
   ("Sauna".toList, "1500 ₽/час".toList),
   ("Banya".toList, "2000 ₽/час".toList),
   ("Kitchen".toList, "1000 ₽/час".toList),
   ("Banquet".toList, "5000 ₽/час + 500 ₽/гость".toList)]

/-- The lookup `services[service]`, `none` for `undefined`. -/
def servicePrice (services : List (Str × Str)) (service : Str) : Option Str :=
  (services.find? (fun e => decide (e.1 = service))).map Prod.snd

/-- The function `parseFloat` on strings whose numeric prefix is a decimal
integer, as every price of the catalogue is; fractions and exponents are outside
the embedding. -/
def parseFloat (s : Str) : Option Int := parseInt10 s

/-! ## Bookings (`server.js` 43, 206-265, 295-304) -/

/-- The fields of the body of `POST /api/bookings`. `service`, `date`, `endDate`,
`paymentTime`, `checkInTime` and `comment` are strings or absent, `duration` and
`guestCount` integers or absent, `banquetExtras` and `kitchenMenu` arrays of
strings or absent; `cost` and `isConfirmed` are any primitive value. -/
structure BookingBody where
  service : Option Str
  cost : JsVal
  date : Option Str
  endDate : Option Str
  duration : Option Int
  paymentTime : Option Str
  isConfirmed : JsVal
  guestCount : Option Int
  checkInTime : Option Str
  comment : Option Str
  banquetExtras : Option (List Str)
  kitchenMenu : Option (List Str)
  deriving DecidableEq, Repr

/-- A stored booking, the object `sanitizedBooking` of `server.js` 233-248;
an `endDate` of `null` and an absent optional field are `none`. -/
structure Booking where
  user : Str
  service : Str
  cost : JsVal
  date : Str
  endDate : Option Str
  duration : Int
  paymentTime : Str
  isConfirmed : JsVal
  isPaid : Bool
  guestCount : Option Int
  checkInTime : Option Str
  comment : Option Str
  banquetExtras : Option (List Str)
  kitchenMenu : Option (List Str)
  deriving DecidableEq, Repr

/-- The object `bookingsStore`: the per-user collections by phone number, in the
order the keys were first assigned (the order `Object.values` lists them). -/
abbrev BookingsStore := List (Str × List Booking)

/-- The read `bookingsStore[k]`, `none` for `undefined`. -/
def storeGet : BookingsStore → Str → Option (List Booking)
  | [], _ => none
  | (k', v) :: rest, k => if k' = k then some v else storeGet rest k

/-- The assignment `bookingsStore[k] = v`: an existing key keeps its place, a
new key goes last. -/
def storeSet : BookingsStore → Str → List Booking → BookingsStore
  | [], k, v => [(k, v)]
  | (k', v') :: rest, k, v =>
    if k' = k then (k', v) :: rest else (k', v') :: storeSet rest k v

/-- The admin's list `Object.values(bookingsStore).flat()`. -/
def allBookings (store : BookingsStore) : List Booking :=
  (store.map Prod.snd).flatten

/-- The price of one banquet extra (`server.js` 219). -/
def extraPrice (extra : Str) : Int :=
  if extra = "Decoration".toList then 2000
  else if extra = "Music".toList then 3000
  else if extra = "Photographer".toList then 4000
  else 0

/-- The price of one kitchen menu item (`server.js` 223). -/
def itemPrice (item : Str) : Int :=
  if item = "CheesePlatter".toList then 500
  else if item = "Bruschetta".toList then 300
  else if item = "GrilledChicken".toList then 800
  else if item = "PastaCarbonara".toList then 600
  else if item = "Lemonade".toList then 200
  else if item = "Coffee".toList then 150
  else 0

/-- The operand `(duration || 1)`. -/
def durationOrOne (duration : Option Int) : Int :=
  if numTruthy duration then duration.getD 1 else 1

/-- The template `<number> ₽`. -/
def rubles (n : Option Int) : JsVal :=
  .str (numToString n ++ " ₽".toList)

/-- The body of `if (!cost || cost === '')` of `server.js` 215-230: the value
of `totalCost` after it, or `none` when `servicesStore[service]` is `undefined`
and reading its `price` throws. -/
def derivedCost (rt : Runtime) (services : List (Str × Str)) (service : Str)
    (b : BookingBody) : Option JsVal :=
  match servicePrice services service with
  | none => none
  | some price =>
    let basePrice := parseFloat ((split ' ' price).head?.getD [])
    if service = "Banquet".toList ∧ numTruthy b.guestCount then
      let guestCost : Int := 500 * b.guestCount.getD 0
      let hourlyCost := basePrice.map (fun p => p * durationOrOne b.duration)
      let extrasCost : Int :=
        match b.banquetExtras with
        | some extras => extras.foldl (fun sum extra => sum + extraPrice extra) 0
        | none => 0
      some (rubles (hourlyCost.map (fun h => h + guestCost + extrasCost)))
    else if service = "Kitchen".toList ∧ b.kitchenMenu.isSome then
      let hourlyCost := basePrice.map (fun p => p * durationOrOne b.duration)
      let menuCost : Int := (b.kitchenMenu.getD []).foldl (fun sum item => sum + itemPrice item) 0
      some (rubles (hourlyCost.map (fun h => h + menuCost)))
    else if service ∈ ["StandardRoom".toList, "LuxRoom".toList] ∧ strTruthy b.endDate then
      let days : Option Int :=
        match dateParse rt (b.endDate.getD []), dateParse rt (b.date.getD []) with
        | some e, some s => some (-((s - e) / msPerDay))
        | _, _ => none
      some (rubles (match basePrice, days with
        | some p, some d => some (p * d)
        | _, _ => none))
    else if service ∈ ["Sauna".toList, "Banya".toList] then
      some (rubles (basePrice.map (fun p => p * durationOrOne b.duration)))
    else some b.cost

/-- The object `sanitizedBooking` of `server.js` 233-248 for the request body
`b` and the value `cost` of `totalCost`. On an integer `duration` the field
`parseInt(duration, 10) || 1` is `duration || 1`. -/
def sanitizedBooking (sanitize : Str → Str) (now : Str) (user : Str) (b : BookingBody)
    (cost : JsVal) : Booking :=
  { user := user
    service := sanitize (b.service.getD [])
    cost := cost
    date := sanitize (b.date.getD [])
    endDate := if strTruthy b.endDate then b.endDate.map sanitize else none
    duration := durationOrOne b.duration
    paymentTime := if strTruthy b.paymentTime then b.paymentTime.getD [] else now
    isConfirmed := if b.isConfirmed.truthy then b.isConfirmed else .bool false
    isPaid := false
    guestCount := if numTruthy b.guestCount then b.guestCount else none
    checkInTime := if strTruthy b.checkInTime then b.checkInTime.map sanitize else none
    comment := if strTruthy b.comment then b.comment.map sanitize else none
    banquetExtras := b.banquetExtras
    kitchenMenu := b.kitchenMenu }

/-- The handler `POST /api/bookings` (`server.js` 206-256). `sanitize` is the
function of the `sanitize-html` package, `now` the string
`new Date().toISOString()` of the moment of the request, `services` the
`price` fields of `servicesStore`. -/
def postBookings (rt : Runtime) (sanitize : Str → Str) (now : Str)
    (services : List (Str × Str)) (store : BookingsStore) (user : Str) (b : BookingBody) :
    Nat × BookingsStore :=
  if !strTruthy b.service || !b.cost.truthy || !strTruthy b.date then (400, store)
  else
    let totalCost : Option JsVal :=
      if !b.cost.truthy || decide (b.cost = .str []) then
        derivedCost rt services (b.service.getD []) b
      else some b.cost
    match totalCost with
    | none => (500, store)
    | some cost =>
      (201, storeSet store user
        ((storeGet store user).getD [] ++ [sanitizedBooking sanitize now user b cost]))

/-- The request body of the specification's cost example: Banquet for 3 hours
with 10 guests and the extra Music, and no `cost`. -/
def banquetExample : BookingBody :=
  { service := some "Banquet".toList, cost := .undefined, date := some "2025-05-01 18".toList,
    endDate := none, duration := some 3, paymentTime := none, isConfirmed := .undefined,
    guestCount := some 10, checkInTime := none, comment := none,
    banquetExtras := some ["Music".toList], kitchenMenu := none }

/-- A request body for two hours of Sauna with the cost the client computed
and no `isConfirmed`. -/
def saunaExample : BookingBody :=
  { service := some "Sauna".toList, cost := .str "3000 ₽".toList,
    date := some "2025-05-01 10".toList, endDate := none, duration := some 2,
    paymentTime := none, isConfirmed := .undefined, guestCount := none, checkInTime := none,
    comment := none, banquetExtras := none, kitchenMenu := none }

/-- The handler `POST /api/bookings/:index/pay` (`server.js` 258-265); `index`
is `parseInt(req.params.index)`, and `NaN` passes both comparisons, so the
write to `bookingsStore[user][NaN].isPaid` throws. -/
def postBookingsPay (store : BookingsStore) (user : Str) (index : Option Int) :
    Nat × BookingsStore :=
  match storeGet store user with
  | none => (404, store)
  | some bs =>
    match index with
    | none => (500, store)
    | some i =>
      if i < 0 ∨ i ≥ bs.length then (404, store)
      else (200, storeSet store user (bs.modify (fun x => { x with isPaid := true }) i.toNat))

/-- The handler `DELETE /api/bookings/:index` (`server.js` 295-304); `index` is
`parseInt(req.params.index)`. Filtering a collection that is `undefined`
throws. -/
def deleteBookings (store : BookingsStore) (user : Str) (index : Option Int) :
    Nat × BookingsStore :=
  if user ≠ ADMIN_PHONE then (403, store)
  else
    match index with
    | none => (404, store)
    | some i =>
      if i < 0 ∨ i ≥ (allBookings store).length then (404, store)
      else
        match (allBookings store)[i.toNat]? with
        | none => (404, store)
        | some bookingToDelete =>
          match storeGet store bookingToDelete.user with
          | none => (500, store)
          | some bs =>
            (204, storeSet store bookingToDelete.user
              (bs.filter (fun x =>
                !(decide (x.date = bookingToDelete.date) && decide (x.service = bookingToDelete.service)))))

/-- Well-formed booking stores: every phone number keys one collection (as the
keys of an object do), and every booking lies in the collection of its `user`
field, where `POST /api/bookings` puts it. -/
def StoreWF (store : BookingsStore) : Prop :=
  (store.map Prod.fst).Nodup ∧ ∀ e ∈ store, ∀ x ∈ e.2, x.user = e.1

/-- The two bookings the requests of `bookedTwice` store. -/
def bookedTwiceList : List Booking :=
  [sanitizedBooking id "2025-04-30T09:00:00.000Z".toList "+79001112233".toList saunaExample
      saunaExample.cost,
    sanitizedBooking id "2025-04-30T09:05:00.000Z".toList "+79001112233".toList saunaExample
      saunaExample.cost]

/-- The store after one user has submitted the request `saunaExample` twice. -/
def bookedTwice : BookingsStore :=
  (postBookings utcServer id "2025-04-30T09:05:00.000Z".toList servicesStore
    (postBookings utcServer id "2025-04-30T09:00:00.000Z".toList servicesStore []
      "+79001112233".toList saunaExample).2 "+79001112233".toList saunaExample).2

/-! ## Theorems: phone numbers -/

theorem plus7_toList : "+7".toList = ['+', '7'] := rfl

theorem matchesPhone_iff (s : Str) :
    matchesPhone s = true ↔
      ∃ rest, s = '+' :: '7' :: rest ∧ rest.length = 10 ∧ ∀ c ∈ rest, c.isDigit = true := by
  constructor
  · intro h
    unfold matchesPhone at h
    split at h
    · rename_i rest
      simp only [Bool.and_eq_true, decide_eq_true_eq, List.all_eq_true] at h
      exact ⟨rest, rfl, h.1, h.2⟩
    · exact absurd h (by simp)
  · rintro ⟨rest, rfl, hl, hd⟩
    simp only [matchesPhone, Bool.and_eq_true, decide_eq_true_eq, List.all_eq_true]
    exact ⟨hl, hd⟩

theorem digits_of_matchesPhone (s : Str) (h : matchesPhone s = true) :
    (s.filter Char.isDigit).length = 11 ∧ (s.filter Char.isDigit).head? = some '7' := by
  obtain ⟨rest, rfl, hl, hd⟩ := (matchesPhone_iff s).1 h
  have h1 : ('+' : Char).isDigit = false := by decide
  have h2 : ('7' : Char).isDigit = true := by decide
  have h3 : rest.filter Char.isDigit = rest := List.filter_eq_self.2 hd
  simp [List.filter_cons, h1, h2, h3, hl]

theorem normalizePhone_matches_or_same (x : Str) :
    matchesPhone (normalizePhone x) = true ∨ normalizePhone x = x := by
  have hall : ∀ c ∈ x.filter Char.isDigit, c.isDigit = true := fun c hc =>
    (List.mem_filter.1 hc).2
  unfold normalizePhone
  simp only [plus7_toList, List.cons_append, List.nil_append]
  split_ifs with h8 h10 h7
  · left
    refine (matchesPhone_iff _).2 ⟨_, rfl, ?_, ?_⟩
    · simp [h8.2]
    · intro c hc; exact hall c (List.mem_of_mem_drop hc)
  · left
    exact (matchesPhone_iff _).2 ⟨_, rfl, h10, hall⟩
  · left
    obtain ⟨hh, hl⟩ := h7
    cases hn : x.filter Char.isDigit with
    | nil => rw [hn] at hl; simp at hl
    | cons a t =>
      rw [hn] at hh hl hall
      simp only [List.head?_cons, Option.some.injEq] at hh
      subst hh
      refine (matchesPhone_iff _).2 ⟨t, rfl, ?_, ?_⟩
      · simpa using hl
      · intro c hc; exact hall c (List.mem_cons_of_mem _ hc)
  · right
    rfl

/-- C5: the result of `normalizePhone` has the accepted form `+7` and ten digits
exactly when the digits of the input number ten, or eleven with the first of
them `7` or `8`. -/
theorem normalizePhone_matches_iff (phone : Str) :
    matchesPhone (normalizePhone phone) = true ↔
      (phone.filter Char.isDigit).length = 10 ∨
        ((phone.filter Char.isDigit).length = 11 ∧
          ((phone.filter Char.isDigit).head? = some '7' ∨
            (phone.filter Char.isDigit).head? = some '8')) := by
  have hall : ∀ c ∈ phone.filter Char.isDigit, c.isDigit = true := fun c hc =>
    (List.mem_filter.1 hc).2
  unfold normalizePhone
  simp only [plus7_toList, List.cons_append, List.nil_append]
  by_cases h8 : (phone.filter Char.isDigit).head? = some '8' ∧ (phone.filter Char.isDigit).length = 11
  · rw [if_pos h8]
    constructor
    · intro _; exact Or.inr ⟨h8.2, Or.inr h8.1⟩
    · intro _
      refine (matchesPhone_iff _).2 ⟨_, rfl, ?_, ?_⟩
      · simp [h8.2]
      · intro c hc; exact hall c (List.mem_of_mem_drop hc)
  · rw [if_neg h8]
    by_cases h10 : (phone.filter Char.isDigit).length = 10
    · rw [if_pos h10]
      constructor
      · intro _; exact Or.inl h10
      · intro _; exact (matchesPhone_iff _).2 ⟨_, rfl, h10, hall⟩
    · rw [if_neg h10]
      by_cases h7 : (phone.filter Char.isDigit).head? = some '7' ∧ (phone.filter Char.isDigit).length = 11
      · rw [if_pos h7]
        constructor
        · intro _; exact Or.inr ⟨h7.2, Or.inl h7.1⟩
        · intro _
          obtain ⟨hh, hl⟩ := h7
          cases hn : phone.filter Char.isDigit with
          | nil => rw [hn] at hl; simp at hl
          | cons a t =>
            rw [hn] at hh hl hall
            simp only [List.head?_cons, Option.some.injEq] at hh
            subst hh
            refine (matchesPhone_iff _).2 ⟨t, rfl, ?_, ?_⟩
            · simpa using hl
            · intro c hc; exact hall c (List.mem_cons_of_mem _ hc)
      · rw [if_neg h7]
        constructor
        · intro hm
          exact absurd (digits_of_matchesPhone phone hm).symm h7
        · rintro (h | ⟨hl, h | h⟩)
          · exact absurd h h10
          · exact absurd ⟨h, hl⟩ h7
          · exact absurd ⟨h, hl⟩ h8

/-- C10: `normalizePhone` leaves a phone of the accepted form `+7` and ten
digits unchanged, and applying it twice is the same as applying it once. -/
theorem normalizePhone_idempotent :
    (∀ p : Str, matchesPhone p = true → normalizePhone p = p) ∧
      ∀ x : Str, normalizePhone (normalizePhone x) = normalizePhone x := by
  have fixed : ∀ p : Str, matchesPhone p = true → normalizePhone p = p := by
    intro p hp
    obtain ⟨hl, hh⟩ := digits_of_matchesPhone p hp
    obtain ⟨rest, rfl, hr, hd⟩ := (matchesPhone_iff p).1 hp
    have h1 : ('+' : Char).isDigit = false := by decide
    have h2 : ('7' : Char).isDigit = true := by decide
    have h3 : rest.filter Char.isDigit = rest := List.filter_eq_self.2 hd
    simp [normalizePhone, List.filter_cons, h1, h2, h3, hr]
  refine ⟨fixed, fun x => ?_⟩
  rcases normalizePhone_matches_or_same x with hm | hx
  · exact fixed _ hm
  · rw [hx, hx]

/-- C10 at the administrator's phone. -/
theorem normalizePhone_idempotent_witness :
    matchesPhone "+79991234567".toList = true ∧
      normalizePhone "+79991234567".toList = "+79991234567".toList :=
  ⟨by decide, normalizePhone_idempotent.1 _ (by decide)⟩

/-! ## Theorems: blocked slots -/

theorem isBlocked_iff (store : List BlockedSlot) (service date : JsVal) :
    isBlocked store service date = true ↔
      ({ service := service, date := date } : BlockedSlot) ∈ store := by
  unfold isBlocked
  rw [List.any_eq_true]
  constructor
  · rintro ⟨b, hb, h⟩
    have h2 := of_decide_eq_true h
    obtain ⟨s, d⟩ := b
    simp only at h2
    obtain ⟨rfl, rfl⟩ := h2
    exact hb
  · intro h
    exact ⟨_, h, decide_eq_true ⟨rfl, rfl⟩⟩

theorem postBlockedDates_inv (store : List BlockedSlot) (user : Str) (service date : JsVal)
    (h : BlockedInv store) : BlockedInv (postBlockedDates store user service date).2 := by
  unfold postBlockedDates
  split_ifs with h1 h2 h3
  · exact h
  · exact h
  · exact h
  · have hnot : ({ service := service, date := date } : BlockedSlot) ∉ store := by
      intro hm
      exact h3 ((isBlocked_iff store service date).2 hm)
    simp only [Bool.or_eq_true, Bool.not_eq_true', not_or, Bool.not_eq_false] at h2
    refine ⟨?_, ?_⟩
    · exact List.Nodup.append h.1 (List.nodup_singleton _) (by
        intro a ha hb
        rw [List.mem_singleton] at hb
        exact hnot (hb ▸ ha))
    · intro b hb
      rcases List.mem_append.1 hb with hb | hb
      · exact h.2 b hb
      · rw [List.mem_singleton] at hb
        subst hb
        exact ⟨h2.1, h2.2⟩

theorem deleteBlockedDates_inv (store : List BlockedSlot) (user : Str) (index : Option Int)
    (h : BlockedInv store) : BlockedInv (deleteBlockedDates store user index).2 := by
  unfold deleteBlockedDates
  split_ifs with h1
  · exact h
  · cases index with
    | none => exact h
    | some i =>
      simp only
      split_ifs with h2
      · exact h
      · exact ⟨List.Nodup.sublist (List.eraseIdx_sublist _ _) h.1, fun b hb =>
          h.2 b ((List.eraseIdx_sublist _ _).subset hb)⟩

theorem runBlocked_inv (reqs : List BlockedRequest) (store : List BlockedSlot)
    (h : BlockedInv store) : BlockedInv (runBlocked store reqs) := by
  induction reqs generalizing store with
  | nil => exact h
  | cons r rs ih =>
    unfold runBlocked
    rw [List.foldl_cons]
    apply ih
    cases r with
    | block user service date => exact postBlockedDates_inv store user service date h
    | unblock user index => exact deleteBlockedDates_inv store user index h

/-- C7: after any sequence of block and unblock requests from the empty list,
no two entries of the blocked-slot list have the same service and date, and an
administrator's block request for a pair already in the list is answered 409
and leaves the list as it is. -/
theorem blocked_no_duplicate_pair (reqs : List BlockedRequest) :
    (runBlocked [] reqs).Pairwise (fun a b => ¬(a.service = b.service ∧ a.date = b.date)) ∧
      ∀ service date : JsVal,
        (∃ b ∈ runBlocked [] reqs, b.service = service ∧ b.date = date) →
          postBlockedDates (runBlocked [] reqs) ADMIN_PHONE service date
            = (409, runBlocked [] reqs) := by
  have hinv : BlockedInv (runBlocked [] reqs) :=
    runBlocked_inv reqs [] ⟨List.nodup_nil, fun b hb => absurd hb (List.not_mem_nil b)⟩
  refine ⟨?_, ?_⟩
  · refine List.Pairwise.imp ?_ hinv.1
    intro a b hab hsame
    apply hab
    obtain ⟨s, d⟩ := a
    obtain ⟨s', d'⟩ := b
    simp only at hsame
    rw [hsame.1, hsame.2]
  · rintro service date ⟨b, hb, rfl, rfl⟩
    have ht := hinv.2 b hb
    have hblk : isBlocked (runBlocked [] reqs) b.service b.date = true :=
      (isBlocked_iff _ _ _).2 hb
    unfold postBlockedDates
    simp [ht.1, ht.2, hblk]

/-- The same pair blocked twice is in the list once. -/
theorem blocked_no_duplicate_pair_run :
    runBlocked []
      [.block ADMIN_PHONE (.str "Sauna".toList) (.str "2025-05-01 10:00".toList),
       .block ADMIN_PHONE (.str "Sauna".toList) (.str "2025-05-01 10:00".toList)]
      = [{ service := .str "Sauna".toList, date := .str "2025-05-01 10:00".toList }] := by
  decide

/-! ## Theorems: availability check, hourly services -/

theorem split_append_sep (sep : Char) (a b : Str) (h : sep ∉ a) :
    split sep (a ++ sep :: b) = a :: split sep b := by
  induction a with
  | nil => simp [split]
  | cons c cs ih =>
    have hc : c ≠ sep := fun e => h (e ▸ List.mem_cons_self _ _)
    have hcs : sep ∉ cs := fun e => h (List.mem_cons_of_mem _ e)
    simp [split, hc, ih hcs]

theorem hour_token (h : Nat) (hh : h < 24) (hs : Str)
    (hhs : hs = intToString (h : Int) ∨ hs = twoDigit h) :
    split ' ' hs = [hs] ∧ parseInt10 hs = some (h : Int) := by
  rcases hhs with rfl | rfl <;> interval_cases h <;> decide

theorem padStart_hour (h : Nat) (hh : h < 24) :
    padStart (intToString (h : Int)) 2 '0' = twoDigit h := by
  interval_cases h <;> decide

theorem hourlySlot_eq (D : Str) (h i : Nat) :
    hourlySlot D (some (h : Int)) i = D ++ ' ' :: twoDigit ((h + i) % 24) ++ ":00".toList := by
  have hlt : (h + i) % 24 < 24 := Nat.mod_lt _ (by decide)
  have hmod : ((h : Int) + (i : Int)).tmod 24 = (((h + i) % 24 : Nat) : Int) := by
    rw [Int.tmod_eq_emod] <;> omega
  simp only [hourlySlot, jsMod, Option.map_some', numToString, hmod]
  rw [padStart_hour _ hlt]

/-- C3: for an hourly service, a date part `D` without a space, a start hour
`h` below 24 written `hs` in decimal (with or without a leading zero) and an
integer duration `d`, the check on the date `D hs` answers 409 when for some
`i` from 0 below `d` the list holds the service with the slot `D`, a space, the
two digits of `(h + i) mod 24` and `:00`, and answers 200 otherwise; `D` is
the same for every `i`. -/
theorem hourly_check_conflict_iff (rt : Runtime) (store : List BlockedSlot) (s D hs : Str)
    (h : Nat) (d : Int) (endDate : JsVal)
    (hsv : s ∈ hourlyServices) (hD : ' ' ∉ D) (hh : h < 24)
    (hhs : hs = intToString (h : Int) ∨ hs = twoDigit h) :
    ((∃ i : Nat, (i : Int) < d ∧
        ({ service := .str s, date := .str (D ++ ' ' :: twoDigit ((h + i) % 24) ++ ":00".toList) }
          : BlockedSlot) ∈ store) →
      postBookingsCheck rt store (.str s) (.str (D ++ ' ' :: hs)) endDate (some d) = some 409) ∧
    ((¬ ∃ i : Nat, (i : Int) < d ∧
        ({ service := .str s, date := .str (D ++ ' ' :: twoDigit ((h + i) % 24) ++ ":00".toList) }
          : BlockedSlot) ∈ store) →
      postBookingsCheck rt store (.str s) (.str (D ++ ' ' :: hs)) endDate (some d) = some 200) := by
  have hhour : isHourly (.str s) = true := by simp [isHourly, hsv]
  have hparts : split ' ' (D ++ ' ' :: hs) = [D, hs] := by
    rw [split_append_sep _ _ _ hD, (hour_token h hh hs hhs).1]
  have hconf : hourlyConflict store (.str s) D (some (h : Int)) (some d) = true ↔
      ∃ i : Nat, (i : Int) < d ∧
        ({ service := .str s, date := .str (D ++ ' ' :: twoDigit ((h + i) % 24) ++ ":00".toList) }
          : BlockedSlot) ∈ store := by
    simp only [hourlyConflict, List.any_eq_true, List.mem_range, isBlocked_iff, hourlySlot_eq]
    constructor
    · rintro ⟨i, hi, hm⟩
      exact ⟨i, by omega, hm⟩
    · rintro ⟨i, hi, hm⟩
      exact ⟨i, by omega, hm⟩
  have hval : postBookingsCheck rt store (.str s) (.str (D ++ ' ' :: hs)) endDate (some d) =
      if hourlyConflict store (.str s) D (some (h : Int)) (some d) then some 409 else some 200 := by
    simp only [postBookingsCheck, hhour, if_true, hparts, List.head?_cons, Option.getD_some,
      List.tail_cons, parseIntOpt, (hour_token h hh hs hhs).2]
  rw [hval]
  constructor
  · intro hex
    rw [if_pos (hconf.2 hex)]
  · intro hex
    rw [if_neg (fun hc => hex (hconf.1 hc))]

/-- C3 at the wrap past 23: Sauna on `2025-05-01 23` for 2 hours is a conflict
when `2025-05-01 00:00` is blocked, and available when only `2025-05-02 00:00`
is. -/
theorem hourly_check_wraparound :
    postBookingsCheck utcServer
        [{ service := .str "Sauna".toList, date := .str "2025-05-01 00:00".toList }]
        (.str "Sauna".toList) (.str "2025-05-01 23".toList) .undefined (some 2) = some 409 ∧
      postBookingsCheck utcServer
        [{ service := .str "Sauna".toList, date := .str "2025-05-02 00:00".toList }]
        (.str "Sauna".toList) (.str "2025-05-01 23".toList) .undefined (some 2) = some 200 :=
  ⟨(hourly_check_conflict_iff utcServer
      [{ service := .str "Sauna".toList, date := .str "2025-05-01 00:00".toList }]
      "Sauna".toList "2025-05-01".toList "23".toList 23 2 .undefined
      (by decide) (by decide) (by decide) (by decide)).1
      ⟨1, by decide, by decide⟩,
    (hourly_check_conflict_iff utcServer
      [{ service := .str "Sauna".toList, date := .str "2025-05-02 00:00".toList }]
      "Sauna".toList "2025-05-01".toList "23".toList 23 2 .undefined
      (by decide) (by decide) (by decide) (by decide)).2
      (by
        rintro ⟨i, hi, hm⟩
        have hi2 : i < 2 := by omega
        interval_cases i <;> revert hm <;> decide)⟩

/-- C1: with the duration left out, the hourly loop runs no iteration: Sauna on
`2025-05-01 10` is answered 200 although the slot `2025-05-01 10:00` of the
request is blocked; with the duration 1 the same request is answered 409. -/
theorem hourly_check_without_duration :
    postBookingsCheck utcServer
        [{ service := .str "Sauna".toList, date := .str "2025-05-01 10:00".toList }]
        (.str "Sauna".toList) (.str "2025-05-01 10".toList) .undefined none = some 200 ∧
      postBookingsCheck utcServer
        [{ service := .str "Sauna".toList, date := .str "2025-05-01 10:00".toList }]
        (.str "Sauna".toList) (.str "2025-05-01 10".toList) .undefined (some 1) = some 409 := by
  decide

/-- Whatever is blocked, the check for an hourly service without a duration
answers 200. -/
theorem hourly_check_no_duration_available (rt : Runtime) (store : List BlockedSlot)
    (s date : Str) (endDate : JsVal) (hs : s ∈ hourlyServices) :
    postBookingsCheck rt store (.str s) (.str date) endDate none = some 200 := by
  have hhour : isHourly (.str s) = true := by simp [isHourly, hs]
  simp [postBookingsCheck, hhour, hourlyConflict]

/-! ## Theorems: availability check, ranged stays -/

/-- C2: on a server three hours east of UTC the ranged check for StandardRoom
from `2025-06-01` to `2025-06-03` answers 200 although `2025-06-03` is blocked, and
409 when only `2025-05-31` is blocked; on a server at UTC the answers are 409 and
200. -/
theorem ranged_check_time_zone_shift :
    postBookingsCheck eastServer
        [{ service := .str "StandardRoom".toList, date := .str "2025-06-03".toList }]
        (.str "StandardRoom".toList) (.str "2025-06-01".toList) (.str "2025-06-03".toList) none
        = some 200 ∧
      postBookingsCheck eastServer
        [{ service := .str "StandardRoom".toList, date := .str "2025-05-31".toList }]
        (.str "StandardRoom".toList) (.str "2025-06-01".toList) (.str "2025-06-03".toList) none
        = some 409 ∧
      postBookingsCheck utcServer
        [{ service := .str "StandardRoom".toList, date := .str "2025-06-03".toList }]
        (.str "StandardRoom".toList) (.str "2025-06-01".toList) (.str "2025-06-03".toList) none
        = some 409 ∧
      postBookingsCheck utcServer
        [{ service := .str "StandardRoom".toList, date := .str "2025-05-31".toList }]
        (.str "StandardRoom".toList) (.str "2025-06-01".toList) (.str "2025-06-03".toList) none
        = some 200 := by
  decide

theorem TimeClip_some (t t' : Int) (h : TimeClip t = some t') :
    t' = t ∧ -maxTime ≤ t ∧ t ≤ maxTime := by
  unfold TimeClip at h
  split_ifs at h with hc
  · exact ⟨(Option.some.inj h).symm, hc.1, hc.2⟩

theorem TimeClip_of_range (t : Int) (h1 : -maxTime ≤ t) (h2 : t ≤ maxTime) :
    TimeClip t = some t := by
  unfold TimeClip
  rw [if_pos ⟨h1, h2⟩]

theorem setDateNext_eq (rt : Runtime) (t : Int) : setDateNext rt t = TimeClip (t + msPerDay) := by
  unfold setDateNext
  simp only
  congr 1
  unfold MakeDate MakeDay DateFromTime TimeWithinDay Day msPerDay
  generalize monthStartDay _ _ = ms
  have h := Int.ediv_add_emod (t + rt.tzMinutes * 60000) 86400000
  omega

theorem setHoursZero_some (rt : Runtime) (v : Option Int) (t : Int)
    (h : v.bind (setHoursZero rt) = some t) : -maxTime ≤ t ∧ t ≤ maxTime := by
  cases v with
  | none => simp at h
  | some a =>
    simp only [Option.some_bind, setHoursZero] at h
    obtain ⟨rfl, h1, h2⟩ := TimeClip_some _ _ h
    exact ⟨h1, h2⟩

theorem rangedConflict_succ (rt : Runtime) (store : List BlockedSlot) (service : JsVal) (end_ d : Int) (f : Nat) :
    rangedConflict rt store service end_ (f + 1) d =
      if d ≤ end_ then
        if isBlocked store service (.str (checkDateOf d)) then some true
        else
          match setDateNext rt d with
          | some d' => rangedConflict rt store service end_ f d'
          | none => some false
      else some false := by
  rfl

theorem rangedConflict_eq (rt : Runtime) (store : List BlockedSlot) (service : JsVal)
    (end_ : Int) (hend : end_ ≤ maxTime) (f : Nat) :
    ∀ d : Int, end_ < d + (f : Int) * msPerDay → -maxTime ≤ d →
      rangedConflict rt store service end_ (f + 1) d =
        some ((List.range f).any (fun k =>
          decide (d + (k : Int) * msPerDay ≤ end_) &&
            isBlocked store service (.str (checkDateOf (d + (k : Int) * msPerDay))))) := by
  have hms : (0 : Int) < msPerDay := by decide
  induction f with
  | zero =>
    intro d hd _
    have hnot : ¬ d ≤ end_ := by simp at hd; omega
    rw [rangedConflict_succ, if_neg hnot]
    rfl
  | succ f ih =>
    intro d hd hlow
    rw [rangedConflict_succ]
    by_cases hle : d ≤ end_
    · rw [if_pos hle]
      by_cases hb : isBlocked store service (.str (checkDateOf d)) = true
      · rw [if_pos hb]
        congr 1
        symm
        rw [List.any_eq_true]
        exact ⟨0, List.mem_range.2 (Nat.succ_pos f), by simp [hle, hb]⟩
      · rw [if_neg hb, setDateNext_eq]
        have h0 : (decide (d + ((0 : Nat) : Int) * msPerDay ≤ end_) &&
            isBlocked store service (.str (checkDateOf (d + ((0 : Nat) : Int) * msPerDay)))) = false := by
          simp [hb]
        by_cases hin : d + msPerDay ≤ maxTime
        · rw [TimeClip_of_range _ (by linarith) hin]
          simp only
          rw [ih (d + msPerDay) (by push_cast at hd; linarith) (by linarith)]
          congr 1
          rw [List.range_succ_eq_map, List.any_cons, List.any_map, h0, Bool.false_or]
          congr 1
          funext k
          have e : d + msPerDay + (k : Int) * msPerDay = d + ((k + 1 : Nat) : Int) * msPerDay := by
            push_cast; ring
          simp only [Function.comp, e, Nat.succ_eq_add_one]
        · have hnone : TimeClip (d + msPerDay) = none := by
            unfold TimeClip
            rw [if_neg (fun hc => hin hc.2)]
          rw [hnone]
          simp only
          congr 1
          symm
          rw [Bool.eq_false_iff]
          intro h
          rw [List.any_eq_true] at h
          obtain ⟨k, _, hk⟩ := h
          simp only [Bool.and_eq_true, decide_eq_true_eq] at hk
          cases k with
          | zero =>
            simp only [Nat.cast_zero, zero_mul, add_zero] at hk
            exact hb hk.2
          | succ k =>
            have hk0 : (0 : Int) ≤ (k : Int) * msPerDay :=
              mul_nonneg (Int.ofNat_nonneg k) hms.le
            have hk1 := hk.1
            push_cast at hk1
            linarith
    · rw [if_neg hle]
      congr 1
      symm
      rw [Bool.eq_false_iff]
      intro h
      rw [List.any_eq_true] at h
      obtain ⟨k, _, hk⟩ := h
      simp only [Bool.and_eq_true, decide_eq_true_eq] at hk
      have hk0 : (0 : Int) ≤ (k : Int) * msPerDay :=
        mul_nonneg (Int.ofNat_nonneg k) hms.le
      exact hle (by linarith [hk.1])

/-- The ranged branch always answers: with `start` and `end_` the local
midnights of the two dates, it answers 409 when one of the times `start`,
`start` plus a day, ... up to `end_` has its UTC day string blocked, and 200
otherwise. -/
theorem ranged_check_eq (rt : Runtime) (store : List BlockedSlot)
    (service date endDate : JsVal) (duration : Option Int) (start end_ : Int)
    (hs : isHourly service = false) (he : endDate.truthy = true)
    (ha : (newDate rt date).bind (setHoursZero rt) = some start)
    (hee : (newDate rt endDate).bind (setHoursZero rt) = some end_) :
    postBookingsCheck rt store service date endDate duration =
      some (if (List.range (((end_ - start) / msPerDay).toNat + 1)).any
          (fun k => decide (start + (k : Int) * msPerDay ≤ end_) &&
            isBlocked store service (.str (checkDateOf (start + (k : Int) * msPerDay))))
        then 409 else 200) := by
  have hend := (setHoursZero_some rt _ _ hee).2
  have hstart := (setHoursZero_some rt _ _ ha).1
  unfold postBookingsCheck
  simp only [hs, he, ha, hee, Bool.false_eq_true, if_false, if_true]
  rw [rangedConflict_eq rt store service end_ hend _ start ?_ hstart]
  · simp
  · have h1 := Int.emod_add_ediv (end_ - start) msPerDay
    have h2 : (end_ - start) % msPerDay < msPerDay := Int.emod_lt_of_pos _ (by decide)
    have h3 := Int.self_le_toNat ((end_ - start) / msPerDay)
    have h4 : (0 : Int) < msPerDay := by decide
    push_cast
    nlinarith

/-- The availability check answers every request: the iterations the ranged
loop is given are enough for it to end. -/
theorem postBookingsCheck_total (rt : Runtime) (store : List BlockedSlot)
    (service date endDate : JsVal) (duration : Option Int) :
    ∃ code : Nat, postBookingsCheck rt store service date endDate duration = some code := by
  by_cases hs : isHourly service = true
  · unfold postBookingsCheck
    rw [if_pos hs]
    cases date <;> simp only <;> first | exact ⟨_, rfl⟩ | (split_ifs <;> exact ⟨_, rfl⟩)
  · have hs' : isHourly service = false := by simpa using hs
    by_cases he : endDate.truthy = true
    · cases ha : (newDate rt date).bind (setHoursZero rt) with
      | none =>
        unfold postBookingsCheck
        simp only [hs', he, ha, Bool.false_eq_true, if_false, if_true]
        exact ⟨_, rfl⟩
      | some start =>
        cases hee : (newDate rt endDate).bind (setHoursZero rt) with
        | none =>
          unfold postBookingsCheck
          simp only [hs', he, ha, hee, Bool.false_eq_true, if_false, if_true]
          exact ⟨_, rfl⟩
        | some end_ =>
          exact ⟨_, ranged_check_eq rt store service date endDate duration start end_ hs' he ha hee⟩
    · unfold postBookingsCheck
      rw [if_neg hs, if_neg he]
      split_ifs <;> exact ⟨_, rfl⟩
theorem digitChar_ne_T (n : Nat) : Nat.digitChar (n % 10) ≠ 'T' := by
  have h : n % 10 < 10 := Nat.mod_lt _ (by decide)
  generalize n % 10 = m at h
  interval_cases m <;> decide

theorem toDigitsCore_noT (fuel : Nat) : ∀ (n : Nat) (acc : List Char), 'T' ∉ acc →
    'T' ∉ Nat.toDigitsCore 10 fuel n acc := by
  induction fuel with
  | zero => intro n acc h; simpa [Nat.toDigitsCore] using h
  | succ fuel ih =>
    intro n acc h
    have hcons : 'T' ∉ Nat.digitChar (n % 10) :: acc := by
      intro hm
      rcases List.mem_cons.1 hm with hm | hm
      · exact digitChar_ne_T _ hm.symm
      · exact h hm
    rw [Nat.toDigitsCore]
    split_ifs
    · exact hcons
    · exact ih _ _ hcons

theorem intToString_noT (n : Int) : 'T' ∉ intToString n := by
  cases n with
  | ofNat k => exact toDigitsCore_noT _ _ _ (List.not_mem_nil _)
  | negSucc k =>
    intro hm
    rcases List.mem_cons.1 hm with hm | hm
    · exact absurd hm (by decide)
    · exact toDigitsCore_noT _ _ _ (List.not_mem_nil _) hm

theorem padStart_noT (s : Str) (n : Nat) (h : 'T' ∉ s) : 'T' ∉ padStart s n '0' := by
  unfold padStart
  intro hm
  rcases List.mem_append.1 hm with hm | hm
  · exact absurd (List.eq_of_mem_replicate hm) (by decide)
  · exact h hm

theorem isoYear_noT (y : Int) : 'T' ∉ isoYear y := by
  unfold isoYear
  split_ifs
  · exact padStart_noT _ _ (intToString_noT _)
  · intro hm
    rcases List.mem_cons.1 hm with hm | hm
    · exact absurd hm (by decide)
    · exact padStart_noT _ _ (intToString_noT _) hm
  · intro hm
    rcases List.mem_cons.1 hm with hm | hm
    · exact absurd hm (by decide)
    · exact padStart_noT _ _ (intToString_noT _) hm

theorem isoDateOfDay_noT (n : Int) : 'T' ∉ isoDateOfDay n := by
  unfold isoDateOfDay
  simp only [List.mem_append, List.mem_cons, not_or]
  refine ⟨⟨isoYear_noT _, by decide, padStart_noT _ _ (intToString_noT _)⟩, by decide,
    padStart_noT _ _ (intToString_noT _)⟩

theorem checkDateOf_eq (t : Int) : checkDateOf t = isoDateOfDay (Day t) := by
  have h : toISOString t = isoDateOfDay (Day t) ++ 'T' ::
      (padStart (intToString (TimeWithinDay t / 3600000)) 2 '0'
        ++ ':' :: padStart (intToString (TimeWithinDay t / 60000 % 60)) 2 '0'
        ++ ':' :: padStart (intToString (TimeWithinDay t / 1000 % 60)) 2 '0'
        ++ '.' :: padStart (intToString (TimeWithinDay t % 1000)) 3 '0' ++ ['Z']) := by
    simp [toISOString, isoDateOfDay, YearFromTime, MonthFromTime, DateFromTime, List.append_assoc]
  unfold checkDateOf
  rw [h, split_append_sep _ _ _ (isoDateOfDay_noT _)]
  rfl

/-- The offset of local midnight from the UTC midnight before or at it. -/
theorem setHoursZero_midnight (rt : Runtime) (S : Int)
    (h1 : -1440 < rt.tzMinutes) (h2 : rt.tzMinutes < 1440)
    (hS1 : -100000000 < S) (hS2 : S ≤ 100000000) :
    setHoursZero rt (MakeDate S 0) =
      some ((S - (if rt.tzMinutes = 0 then 0 else 1)) * msPerDay
        + (-(rt.tzMinutes * 60000)) % msPerDay) := by
  unfold setHoursZero
  simp only
  have hval : MakeDate (Day (MakeDate S 0 + rt.tzMinutes * 60000)) 0 - rt.tzMinutes * 60000
      = (S - (if rt.tzMinutes = 0 then 0 else 1)) * msPerDay
        + (-(rt.tzMinutes * 60000)) % msPerDay := by
    unfold MakeDate Day msPerDay
    split_ifs <;> omega
  rw [hval]
  apply TimeClip_of_range
  · unfold maxTime msPerDay
    split_ifs <;> omega
  · unfold maxTime msPerDay
    split_ifs <;> omega

/-- The ranged check between two dates that parse to the days `S` and `E`, on a
server whose local offset from UTC is less than a day: it answers 409 when a
day from `S` to `E` is blocked if the offset is zero, or a day from `S - 1` to
`E - 1` if it is not, and answers 200 otherwise. -/
theorem ranged_check_days (rt : Runtime) (store : List BlockedSlot)
    (service date endDate : JsVal) (duration : Option Int) (S E : Int)
    (hs : isHourly service = false) (he : endDate.truthy = true)
    (ha : newDate rt date = some (MakeDate S 0)) (hee : newDate rt endDate = some (MakeDate E 0))
    (h1 : -1440 < rt.tzMinutes) (h2 : rt.tzMinutes < 1440)
    (hS1 : -100000000 < S) (hS2 : S ≤ 100000000)
    (hE1 : -100000000 < E) (hE2 : E ≤ 100000000) :
    ((∃ n : Int, S - (if rt.tzMinutes = 0 then 0 else 1) ≤ n ∧
          n ≤ E - (if rt.tzMinutes = 0 then 0 else 1) ∧
          ({ service := service, date := .str (isoDateOfDay n) } : BlockedSlot) ∈ store) →
        postBookingsCheck rt store service date endDate duration = some 409) ∧
      ((¬ ∃ n : Int, S - (if rt.tzMinutes = 0 then 0 else 1) ≤ n ∧
          n ≤ E - (if rt.tzMinutes = 0 then 0 else 1) ∧
          ({ service := service, date := .str (isoDateOfDay n) } : BlockedSlot) ∈ store) →
        postBookingsCheck rt store service date endDate duration = some 200) := by
  have hms : (0 : Int) < msPerDay := by decide
  have hr0 : 0 ≤ (-(rt.tzMinutes * 60000)) % msPerDay := Int.emod_nonneg _ hms.ne'
  have hr1 : (-(rt.tzMinutes * 60000)) % msPerDay < msPerDay := Int.emod_lt_of_pos _ hms
  generalize hsh : (if rt.tzMinutes = 0 then (0 : Int) else 1) = sh
  have hstart : (newDate rt date).bind (setHoursZero rt)
      = some ((S - sh) * msPerDay + (-(rt.tzMinutes * 60000)) % msPerDay) := by
    rw [ha, Option.some_bind, setHoursZero_midnight rt S h1 h2 hS1 hS2, hsh]
  have hend : (newDate rt endDate).bind (setHoursZero rt)
      = some ((E - sh) * msPerDay + (-(rt.tzMinutes * 60000)) % msPerDay) := by
    rw [hee, Option.some_bind, setHoursZero_midnight rt E h1 h2 hE1 hE2, hsh]
  rw [ranged_check_eq rt store service date endDate duration _ _ hs he hstart hend]
  generalize (-(rt.tzMinutes * 60000)) % msPerDay = r at hr0 hr1
  have hle : ∀ k : Nat, ((S - sh) * msPerDay + r + (k : Int) * msPerDay
      ≤ (E - sh) * msPerDay + r) ↔ S + k ≤ E := by
    intro k
    unfold msPerDay
    constructor <;> intro h <;> omega
  have hday : ∀ k : Nat, Day ((S - sh) * msPerDay + r + (k : Int) * msPerDay) = S - sh + k := by
    intro k
    unfold Day
    unfold msPerDay at hr1 ⊢
    omega
  have key : ((List.range ((((E - sh) * msPerDay + r - ((S - sh) * msPerDay + r)) / msPerDay).toNat
        + 1)).any
      (fun k => decide ((S - sh) * msPerDay + r + (k : Int) * msPerDay ≤ (E - sh) * msPerDay + r) &&
          isBlocked store service
            (.str (checkDateOf ((S - sh) * msPerDay + r + (k : Int) * msPerDay))))
        = true) ↔
      ∃ n : Int, S - sh ≤ n ∧ n ≤ E - sh ∧
        ({ service := service, date := .str (isoDateOfDay n) } : BlockedSlot) ∈ store := by
    rw [List.any_eq_true]
    constructor
    · rintro ⟨k, _, hk⟩
      simp only [Bool.and_eq_true, decide_eq_true_eq, isBlocked_iff, checkDateOf_eq, hday,
        hle] at hk
      exact ⟨_, by omega, by omega, hk.2⟩
    · rintro ⟨n, hn1, hn2, hm⟩
      have hk0 : 0 ≤ n - (S - sh) := by omega
      obtain ⟨k, hk⟩ := Int.eq_ofNat_of_zero_le hk0
      have hn : n = S - sh + k := by omega
      refine ⟨k, ?_, ?_⟩
      · rw [List.mem_range]
        have hq : (k : Int) ≤ ((E - sh) * msPerDay + r - ((S - sh) * msPerDay + r)) / msPerDay := by
          rw [Int.le_ediv_iff_mul_le hms]
          have := (hle k).2 (by omega)
          linarith
        omega
      · simp only [Bool.and_eq_true, decide_eq_true_eq, isBlocked_iff, checkDateOf_eq, hday, hle]
        exact ⟨by omega, hn ▸ hm⟩
  constructor
  · intro hex
    rw [if_pos (key.2 hex)]
  · intro hex
    rw [if_neg (fun h => hex (key.1 h))]

/-- The example of the specification on a server three hours east of UTC:
whatever the list holds, StandardRoom from `2025-06-01` to `2025-06-03` is answered
409 when one of `2025-05-31`, `2025-06-01`, `2025-06-02` is blocked for it and 200
otherwise, so `2025-06-03` is never looked at. -/
theorem ranged_check_example_east (store : List BlockedSlot) :
    postBookingsCheck eastServer store (.str "StandardRoom".toList) (.str "2025-06-01".toList)
        (.str "2025-06-03".toList) none =
      some (if isBlocked store (.str "StandardRoom".toList) (.str "2025-05-31".toList)
            || isBlocked store (.str "StandardRoom".toList) (.str "2025-06-01".toList)
            || isBlocked store (.str "StandardRoom".toList) (.str "2025-06-02".toList)
        then 409 else 200) := by
  have h := ranged_check_eq eastServer store (.str "StandardRoom".toList)
    (.str "2025-06-01".toList) (.str "2025-06-03".toList) none 1748725200000 1748898000000
    (by decide) (by decide) (by decide) (by decide)
  rw [h]
  have e0 : checkDateOf (1748725200000 + ((0 : Nat) : Int) * msPerDay)
      = "2025-05-31".toList := by decide
  have e1 : checkDateOf (1748725200000 + ((1 : Nat) : Int) * msPerDay)
      = "2025-06-01".toList := by decide
  have e2 : checkDateOf (1748725200000 + ((2 : Nat) : Int) * msPerDay)
      = "2025-06-02".toList := by decide
  have l0 : decide ((1748725200000 : Int) + ((0 : Nat) : Int) * msPerDay
      ≤ 1748898000000) = true := by decide
  have l1 : decide ((1748725200000 : Int) + ((1 : Nat) : Int) * msPerDay
      ≤ 1748898000000) = true := by decide
  have l2 : decide ((1748725200000 : Int) + ((2 : Nat) : Int) * msPerDay
      ≤ 1748898000000) = true := by decide
  have hn : (((1748898000000 : Int) - 1748725200000) / msPerDay).toNat + 1 = 3 := by decide
  rw [hn]
  simp only [List.range_succ, List.range_zero, List.nil_append, List.cons_append, List.any_cons,
    List.any_nil, Bool.or_false, e0, e1, e2, l0, l1, l2, Bool.true_and, Bool.or_assoc]

/-- The same example on a server at UTC, through `ranged_check_days`: 409 exactly
when one of the three days from `2025-06-01` (day 20240) to `2025-06-03` is
blocked. -/
theorem ranged_check_example_utc (store : List BlockedSlot) :
    ((∃ n : Int, 20240 ≤ n ∧ n ≤ 20242 ∧
          ({ service := .str "StandardRoom".toList, date := .str (isoDateOfDay n) }
            : BlockedSlot) ∈ store) →
        postBookingsCheck utcServer store (.str "StandardRoom".toList)
          (.str "2025-06-01".toList) (.str "2025-06-03".toList) none = some 409) ∧
      ((¬ ∃ n : Int, 20240 ≤ n ∧ n ≤ 20242 ∧
          ({ service := .str "StandardRoom".toList, date := .str (isoDateOfDay n) }
            : BlockedSlot) ∈ store) →
        postBookingsCheck utcServer store (.str "StandardRoom".toList)
          (.str "2025-06-01".toList) (.str "2025-06-03".toList) none = some 200) ∧
      [isoDateOfDay 20240, isoDateOfDay 20241, isoDateOfDay 20242]
        = ["2025-06-01".toList, "2025-06-02".toList, "2025-06-03".toList] := by
  have h := ranged_check_days utcServer store (.str "StandardRoom".toList)
    (.str "2025-06-01".toList) (.str "2025-06-03".toList) none 20240 20242
    (by decide) (by decide) (by decide) (by decide) (by decide) (by decide)
    (by decide) (by decide) (by decide) (by decide)
  have hz : (if utcServer.tzMinutes = 0 then (0 : Int) else 1) = 0 := by decide
  rw [hz] at h
  simp only [sub_zero] at h
  exact ⟨h.1, h.2, by decide⟩
/-! ## Theorems: booking submission -/

theorem storeGet_storeSet_self (store : BookingsStore) (k : Str) (v : List Booking) :
    storeGet (storeSet store k v) k = some v := by
  induction store with
  | nil => simp [storeSet, storeGet]
  | cons e rest ih =>
    obtain ⟨k', v'⟩ := e
    by_cases h : k' = k
    · simp [storeSet, storeGet, h]
    · simp [storeSet, storeGet, h, ih]

theorem storeGet_storeSet_other (store : BookingsStore) (k k2 : Str) (v : List Booking)
    (h : k2 ≠ k) : storeGet (storeSet store k v) k2 = storeGet store k2 := by
  induction store with
  | nil => simp [storeSet, storeGet, h.symm]
  | cons e rest ih =>
    obtain ⟨k', v'⟩ := e
    by_cases h' : k' = k
    · subst h'
      simp [storeSet, storeGet, h.symm]
    · by_cases h2 : k' = k2
      · subst h2
        simp [storeSet, storeGet, h]
      · simp [storeSet, storeGet, h', h2, ih]

/-- A submission whose cost is missing or empty is answered 400 and stores
nothing: the cost block of `server.js` 214-231 is never reached. -/
theorem postBookings_cost_required (rt : Runtime) (sanitize : Str → Str) (now : Str)
    (services : List (Str × Str)) (store : BookingsStore) (user : Str) (b : BookingBody)
    (hc : b.cost.truthy = false) :
    postBookings rt sanitize now services store user b = (400, store) := by
  simp [postBookings, hc]

/-- C4: the Banquet submission of the specification's example, with duration 3,
10 guests, the extra Music and no cost, is answered 400 and stores no booking,
whatever the store held; the cost block, had it run, would give `23000 ₽`. -/
theorem postBookings_banquet_without_cost (rt : Runtime) (sanitize : Str → Str) (now : Str)
    (store : BookingsStore) (user : Str) :
    postBookings rt sanitize now servicesStore store user banquetExample = (400, store) ∧
      derivedCost rt servicesStore "Banquet".toList banquetExample
        = some (.str "23000 ₽".toList) :=
  ⟨by simp [postBookings, banquetExample, JsVal.truthy], rfl⟩

theorem truthy_ne_empty (v : JsVal) (h : v.truthy = true) : v ≠ .str [] := by
  intro e
  subst e
  simp [JsVal.truthy] at h

/-- The two answers of `POST /api/bookings`: 400 when the service, the cost or
the date is missing, and otherwise 201 with the booking stored under the cost
of the request. -/
theorem postBookings_eq (rt : Runtime) (sanitize : Str → Str) (now : Str)
    (services : List (Str × Str)) (store : BookingsStore) (user : Str) (b : BookingBody) :
    postBookings rt sanitize now services store user b =
      if (!strTruthy b.service || !b.cost.truthy || !strTruthy b.date) = true then (400, store)
      else (201, storeSet store user
        ((storeGet store user).getD [] ++ [sanitizedBooking sanitize now user b b.cost])) := by
  unfold postBookings
  by_cases hg : (!strTruthy b.service || !b.cost.truthy || !strTruthy b.date) = true
  · rw [if_pos hg, if_pos hg]
  · rw [if_neg hg, if_neg hg]
    have hc : b.cost.truthy = true := by
      cases hcv : b.cost.truthy
      · exact absurd (by simp [hcv]) hg
      · rfl
    have hne : decide (b.cost = .str []) = false := decide_eq_false (truthy_ne_empty _ hc)
    simp [hc, hne]

/-- C8, as the code has it: a submission that is answered 201 leaves the
caller's collection with one more booking at its end, which is unpaid and whose
`isConfirmed` is the one of the request body when that is truthy and `false`
otherwise. -/
theorem postBookings_created_flags (rt : Runtime) (sanitize : Str → Str) (now : Str)
    (services : List (Str × Str)) (store : BookingsStore) (user : Str) (b : BookingBody)
    (h : (postBookings rt sanitize now services store user b).1 = 201) :
    ∃ booking : Booking,
      storeGet (postBookings rt sanitize now services store user b).2 user
          = some ((storeGet store user).getD [] ++ [booking]) ∧
        booking.isPaid = false ∧
        booking.isConfirmed = (if b.isConfirmed.truthy then b.isConfirmed else .bool false) ∧
        (b.isConfirmed.truthy = false → booking.isConfirmed = .bool false) := by
  rw [postBookings_eq] at h ⊢
  by_cases hg : (!strTruthy b.service || !b.cost.truthy || !strTruthy b.date) = true
  · rw [if_pos hg] at h
    simp at h
  · rw [if_neg hg]
    refine ⟨_, storeGet_storeSet_self _ _ _, rfl, rfl, ?_⟩
    intro hf
    simp [sanitizedBooking, hf]

/-- C8 on a request with `isConfirmed` left out: the stored booking is unpaid and
unconfirmed. -/
theorem postBookings_created_flags_witness :
    (postBookings utcServer id "2025-04-30T09:00:00.000Z".toList servicesStore [] "+79001112233".toList
        saunaExample).1 = 201 ∧
      ∃ booking : Booking,
        storeGet (postBookings utcServer id "2025-04-30T09:00:00.000Z".toList servicesStore []
            "+79001112233".toList saunaExample).2 "+79001112233".toList
          = some ((storeGet [] "+79001112233".toList).getD [] ++ [booking]) ∧
        booking.isPaid = false ∧
        booking.isConfirmed
          = (if saunaExample.isConfirmed.truthy then saunaExample.isConfirmed else .bool false) ∧
        (saunaExample.isConfirmed.truthy = false → booking.isConfirmed = .bool false) :=
  ⟨by decide, postBookings_created_flags utcServer id _ servicesStore [] _ saunaExample (by decide)⟩

/-- C8 fails as stated: a request body with `isConfirmed: true` is answered 201
and its booking enters the caller's collection already confirmed. -/
theorem postBookings_created_confirmed :
    (postBookings utcServer id "2025-04-30T09:00:00.000Z".toList servicesStore [] "+79001112233".toList
        { saunaExample with isConfirmed := .bool true }).1 = 201 ∧
      ((storeGet (postBookings utcServer id "2025-04-30T09:00:00.000Z".toList servicesStore []
          "+79001112233".toList { saunaExample with isConfirmed := .bool true }).2
          "+79001112233".toList).getD []).map (fun x => (x.isPaid, x.isConfirmed))
        = [(false, .bool true)] := by
  decide

/-! ## Theorems: payment and deletion -/

theorem storeSet_keys (store : BookingsStore) (k : Str) (v : List Booking)
    (h : (storeGet store k).isSome = true) :
    (storeSet store k v).map Prod.fst = store.map Prod.fst := by
  induction store with
  | nil => simp [storeGet] at h
  | cons e rest ih =>
    obtain ⟨k', v'⟩ := e
    by_cases hk : k' = k
    · simp [storeSet, hk]
    · simp only [storeGet, hk, if_false] at h
      simp [storeSet, hk, ih h]

/-- C9: when user `u` pays the booking at a valid index `i` of their
collection, the answer is 200, that booking has `isPaid` true and every other
field as before, every other booking of `u` and every other user's collection
are as before, and the store has the same users in the same order. -/
theorem pay_sets_only_isPaid (store : BookingsStore) (u : Str) (bs : List Booking) (i : Nat)
    (hget : storeGet store u = some bs) (hi : i < bs.length) :
    (postBookingsPay store u (some (i : Int))).1 = 200 ∧
      (∃ bs' : List Booking,
        storeGet (postBookingsPay store u (some (i : Int))).2 u = some bs' ∧
          bs'.length = bs.length ∧
          bs'[i]? = (bs[i]?).map (fun b => { b with isPaid := true }) ∧
          ∀ j : Nat, j ≠ i → bs'[j]? = bs[j]?) ∧
      (∀ k : Str, k ≠ u →
        storeGet (postBookingsPay store u (some (i : Int))).2 k = storeGet store k) ∧
      (postBookingsPay store u (some (i : Int))).2.map Prod.fst = store.map Prod.fst := by
  have hguard : ¬ ((i : Int) < 0 ∨ (i : Int) ≥ (bs.length : Int)) := by omega
  have hval : postBookingsPay store u (some (i : Int)) =
      (200, storeSet store u (bs.modify (fun x => { x with isPaid := true }) i)) := by
    simp only [postBookingsPay, hget, hguard, if_false, Int.toNat_ofNat]
  rw [hval]
  refine ⟨rfl, ⟨_, storeGet_storeSet_self _ _ _, List.length_modify _ _ _, ?_, ?_⟩, ?_, ?_⟩
  · simp
  · intro j hj
    exact List.getElem?_modify_ne _ _ (Ne.symm hj)
  · intro k hk
    exact storeGet_storeSet_other _ _ _ _ hk
  · exact storeSet_keys _ _ _ (by simp [hget])

/-- C9 on a store with two bookings of one user: paying the second is answered
200 and leaves the users of the store as they were. -/
theorem pay_sets_only_isPaid_witness :
    storeGet bookedTwice "+79001112233".toList = some bookedTwiceList ∧
      (postBookingsPay bookedTwice "+79001112233".toList (some ((1 : Nat) : Int))).1 = 200 ∧
      (postBookingsPay bookedTwice "+79001112233".toList (some ((1 : Nat) : Int))).2.map Prod.fst
        = bookedTwice.map Prod.fst :=
  ⟨by decide,
    (pay_sets_only_isPaid bookedTwice "+79001112233".toList bookedTwiceList 1
      (by decide) (by decide)).1,
    (pay_sets_only_isPaid bookedTwice "+79001112233".toList bookedTwiceList 1
      (by decide) (by decide)).2.2.2⟩


theorem storeGet_of_mem (store : BookingsStore) (k : Str) (bs : List Booking)
    (hnd : (store.map Prod.fst).Nodup) (hm : (k, bs) ∈ store) : storeGet store k = some bs := by
  induction store with
  | nil => exact absurd hm (List.not_mem_nil _)
  | cons e rest ih =>
    obtain ⟨k', v'⟩ := e
    rw [List.map_cons, List.nodup_cons] at hnd
    rcases List.mem_cons.1 hm with h | h
    · cases h
      simp [storeGet]
    · have hne : k' ≠ k := by
        intro e
        subst e
        exact hnd.1 (List.mem_map.2 ⟨(k', bs), h, rfl⟩)
      simp [storeGet, hne, ih hnd.2 h]

theorem mem_allBookings (store : BookingsStore) (b : Booking) :
    b ∈ allBookings store ↔ ∃ e ∈ store, b ∈ e.2 := by
  unfold allBookings
  rw [List.mem_flatten]
  constructor
  · rintro ⟨l, hl, hb⟩
    obtain ⟨e, he, rfl⟩ := List.mem_map.1 hl
    exact ⟨e, he, hb⟩
  · rintro ⟨e, he, hb⟩
    exact ⟨e.2, List.mem_map.2 ⟨e, he, rfl⟩, hb⟩

/-- C6, as the code has it: in a well-formed store, when the administrator
deletes the booking `b` at a valid index `i` of the flattened list, the answer is
204, the collection of `b`'s user loses every entry with the date and service
of `b` (`b` among them) and keeps every other entry in order, so it loses
exactly one entry when no other entry shares both, and every other user's
collection is as before. -/
theorem deleteBookings_removes_matching (store : BookingsStore) (i : Nat)
    (hwf : StoreWF store) (hi : i < (allBookings store).length) :
    ∃ (b : Booking) (bs : List Booking),
      (allBookings store)[i]? = some b ∧ storeGet store b.user = some bs ∧ b ∈ bs ∧
        (deleteBookings store ADMIN_PHONE (some (i : Int))).1 = 204 ∧
        storeGet (deleteBookings store ADMIN_PHONE (some (i : Int))).2 b.user
          = some (bs.filter (fun x => decide (¬(x.date = b.date ∧ x.service = b.service)))) ∧
        (bs.filter (fun x => decide (¬(x.date = b.date ∧ x.service = b.service)))).length
            + bs.countP (fun x => decide (x.date = b.date ∧ x.service = b.service))
          = bs.length ∧
        (bs.countP (fun x => decide (x.date = b.date ∧ x.service = b.service)) = 1 →
          (bs.filter (fun x => decide (¬(x.date = b.date ∧ x.service = b.service)))).length + 1
            = bs.length) ∧
        ∀ k : Str, k ≠ b.user →
          storeGet (deleteBookings store ADMIN_PHONE (some (i : Int))).2 k = storeGet store k := by
  have hb : (allBookings store)[i]? = some ((allBookings store)[i]) := List.getElem?_eq_getElem hi
  generalize (allBookings store)[i] = b at hb
  have hmem : b ∈ allBookings store := List.getElem?_mem hb
  obtain ⟨e, he, hbe⟩ := (mem_allBookings store b).1 hmem
  obtain ⟨k, bs⟩ := e
  have hk : b.user = k := hwf.2 _ he b hbe
  have hget : storeGet store b.user = some bs := by
    rw [hk]
    exact storeGet_of_mem store k bs hwf.1 he
  have hguard : ¬ ((i : Int) < 0 ∨ (i : Int) ≥ ((allBookings store).length : Int)) := by omega
  have hpred : (fun x : Booking => !(decide (x.date = b.date) && decide (x.service = b.service)))
      = (fun x : Booking => decide (¬(x.date = b.date ∧ x.service = b.service))) := by
    funext x
    by_cases h1 : x.date = b.date <;> by_cases h2 : x.service = b.service <;> simp [h1, h2]
  have hval : deleteBookings store ADMIN_PHONE (some (i : Int)) =
      (204, storeSet store b.user
        (bs.filter (fun x => decide (¬(x.date = b.date ∧ x.service = b.service))))) := by
    simp only [deleteBookings, ne_eq, not_true_eq_false, if_false, hguard, Int.toNat_ofNat, hb,
      hget, hpred]
  have hcount : ∀ l : List Booking,
      (l.filter (fun x => decide (¬(x.date = b.date ∧ x.service = b.service)))).length
        + l.countP (fun x => decide (x.date = b.date ∧ x.service = b.service)) = l.length := by
    intro l
    induction l with
    | nil => rfl
    | cons a t ih =>
      by_cases h : a.date = b.date ∧ a.service = b.service
      · have e1 : decide (a.date = b.date ∧ a.service = b.service) = true := decide_eq_true h
        have e2 : decide (¬(a.date = b.date ∧ a.service = b.service)) = false :=
          decide_eq_false (not_not.2 h)
        rw [List.filter_cons, List.countP_cons, e1, e2]
        simp only [Bool.false_eq_true, if_false, if_true, List.length_cons]
        omega
      · have e1 : decide (a.date = b.date ∧ a.service = b.service) = false := decide_eq_false h
        have e2 : decide (¬(a.date = b.date ∧ a.service = b.service)) = true :=
          decide_eq_true h
        rw [List.filter_cons, List.countP_cons, e1, e2]
        simp only [Bool.false_eq_true, if_false, if_true, List.length_cons]
        omega
  refine ⟨b, bs, hb, hget, hbe, ?_, ?_, hcount bs, ?_, ?_⟩
  · rw [hval]
  · rw [hval]
    exact storeGet_storeSet_self _ _ _
  · intro h1
    have h2 := hcount bs
    omega
  · intro k2 hk2
    rw [hval]
    exact storeGet_storeSet_other _ _ _ _ hk2

theorem bookedTwice_wf : StoreWF bookedTwice := by
  refine ⟨by decide, ?_⟩
  intro e he x hx
  have he2 : e = ("+79001112233".toList, bookedTwiceList) := by
    have : bookedTwice = [("+79001112233".toList, bookedTwiceList)] := by decide
    rw [this] at he
    simpa using he
  subst he2
  simp only [bookedTwiceList, List.mem_cons, List.mem_singleton, List.not_mem_nil, or_false] at hx
  rcases hx with rfl | rfl <;> rfl

/-- C6 fails as stated: after one user has booked the same slot twice, the
administrator's deletion of index 0 is answered 204 and empties that user's
collection of both bookings. -/
theorem deleteBookings_removes_both :
    (allBookings bookedTwice).length = 2 ∧
      deleteBookings bookedTwice ADMIN_PHONE (some 0) = (204, [("+79001112233".toList, [])]) := by
  decide

/-- C6, as the code has it, on the store `bookedTwice`, which is well formed and
has two bookings in its flattened list. -/
theorem deleteBookings_removes_matching_witness :
    StoreWF bookedTwice ∧ 0 < (allBookings bookedTwice).length ∧
      ∃ (b : Booking) (bs : List Booking),
        (allBookings bookedTwice)[0]? = some b ∧ storeGet bookedTwice b.user = some bs ∧ b ∈ bs ∧
          (deleteBookings bookedTwice ADMIN_PHONE (some ((0 : Nat) : Int))).1 = 204 ∧
          storeGet (deleteBookings bookedTwice ADMIN_PHONE (some ((0 : Nat) : Int))).2 b.user
            = some (bs.filter (fun x => decide (¬(x.date = b.date ∧ x.service = b.service)))) ∧
          (bs.filter (fun x => decide (¬(x.date = b.date ∧ x.service = b.service)))).length
              + bs.countP (fun x => decide (x.date = b.date ∧ x.service = b.service))
            = bs.length ∧
          (bs.countP (fun x => decide (x.date = b.date ∧ x.service = b.service)) = 1 →
            (bs.filter (fun x => decide (¬(x.date = b.date ∧ x.service = b.service)))).length + 1
              = bs.length) ∧
          ∀ k : Str, k ≠ b.user →
            storeGet (deleteBookings bookedTwice ADMIN_PHONE (some ((0 : Nat) : Int))).2 k
              = storeGet bookedTwice k :=
  ⟨bookedTwice_wf, by decide,
    deleteBookings_removes_matching bookedTwice 0 bookedTwice_wf (by decide)⟩


end HotelBanya
